import Mathlib

/-! Verification development for the docker-retag registry client
(src/main.go, src/transports.go): a shallow embedding of the
WWW-Authenticate challenge parser, the two authentication transports and
the ReTag operation, with theorems settling the specification claims.

Strings are embedded as lists of characters.  Go operates on bytes; every
input relevant to the claims is ASCII, where the two views coincide
(any byte of a multi-byte UTF-8 character is >= 128 and is classified by
the octetTypes table as neither token nor space, exactly as the
corresponding character is classified here). -/

namespace DockerRetag

/-- Byte strings of the Go program, as lists of characters. -/
abbrev Str := List Char

/-! ## Challenge parser (transports.go lines 139-277) -/

/-- The separator set of RFC 2616 used to build the octetTypes table
(transports.go line 210): the characters of the Go literal
" \t\"(),/:;<=>?@[]\\" together with the two curly braces. -/
def separatorChars : Str :=
  [' ', '\t', '"', '(', ')', ',', '/', ':', ';', '<', '=', '>', '?', '@',
   '[', ']', '\\', '\x7b', '\x7d']

/-- The whitespace set of the octetTypes table (transports.go line 211):
space, tab, carriage return, line feed. -/
def spaceChars : Str := [' ', '\t', '\r', '\n']

/-- Space classification (the isSpace bit of octetTypes, lines 211-213). -/
def isSpaceChar (c : Char) : Bool := spaceChars.contains c

/-- Token classification (the isToken bit of octetTypes, lines 206-217):
a US-ASCII character that is neither a control character nor a separator. -/
def isTokenChar (c : Char) : Bool :=
  decide (c.toNat ≤ 127)
    && !(decide (c.toNat ≤ 31) || decide (c.toNat = 127))
    && !separatorChars.contains c

/-- Go skipSpace (transports.go 222-230): the slice of s starting at the
first non-space character. -/
def skipSpace (s : Str) : Str := s.dropWhile isSpaceChar

/-- Go expectToken (transports.go 233-241): split s into its longest token
prefix and the rest. -/
def expectToken (s : Str) : Str × Str :=
  (s.takeWhile isTokenChar, s.dropWhile isTokenChar)

/-- The inner escape-processing loop of expectTokenOrQuoted
(transports.go 254-273), entered at the first backslash of a quoted
value.  p is the output buffer written so far (Go writes into a buffer of
capacity cap = len(s)-1 at index j = p.length); a write with
p.length >= cap is an out-of-range slice write, i.e. a Go runtime panic,
modelled as none. -/
def quotedInner (rem : Str) (p : Str) (cap : Nat) (escape : Bool) :
    Option (Str × Str) :=
  match rem, escape with
  | [], _ => some ([], [])
  | b :: rest, true =>
    if p.length < cap then quotedInner rest (p ++ [b]) cap false else none
  | b :: rest, false =>
    if b = '\\' then quotedInner rest p cap true
    else if b = '"' then some (p, rest)
    else
      if p.length < cap then quotedInner rest (p ++ [b]) cap false else none

/-- The outer scan of expectTokenOrQuoted (transports.go 249-275) over the
bytes after the opening quote; scanned is s[:i] for the current index i
(so the full post-quote string s has length rem.length + scanned.length).
The backslash case reproduces the source exactly, including the
idiosyncratic index jump "i += i" at line 257: the inner loop resumes at
index 2*i, i.e. after dropping scanned.length characters of rem (not at
i+1), with the buffer capacity len(s)-1 fixed at this point. -/
def quotedOuter (rem : Str) (scanned : Str) : Option (Str × Str) :=
  match rem with
  | [] => some ([], [])
  | c :: rest =>
    if c = '"' then some (scanned, rest)
    else if c = '\\' then
      quotedInner (rem.drop scanned.length) scanned
        (rem.length + scanned.length - 1) true
    else quotedOuter rest (scanned ++ [c])

/-- Go expectTokenOrQuoted (transports.go 244-277): a value that is either
a bare token or a double-quoted string; none models a runtime panic. -/
def expectTokenOrQuoted (s : Str) : Option (Str × Str) :=
  match s with
  | [] => some (expectToken [])
  | c :: rest =>
    if c = '"' then quotedOuter rest []
    else some (expectToken (c :: rest))

/-- Go map assignment params[k] = v (transports.go 173), on an
insertion-ordered association list.  Go maps are unordered; the ordered
list refines them, and every observation in the program goes through key
lookup. -/
def mapSet (m : List (Str × Str)) (k v : Str) : List (Str × Str) :=
  if m.any (fun p => p.1 == k) then
    m.map (fun p => if p.1 == k then (k, v) else p)
  else m ++ [(k, v)]

/-- Go map read params[k] (transports.go 56-58), yielding the zero value
"" when the key is absent. -/
def mapGetD (m : List (Str × Str)) (k : Str) : Str :=
  match m.find? (fun p => p.1 == k) with
  | some p => p.2
  | none => []

/-- Go strings.ToLower, restricted to ASCII (every input in the settled
claims is ASCII, where Unicode and ASCII lowercasing agree). -/
def toLowerStr (s : Str) : Str := s.map Char.toLower

/-- Length of dropWhile never exceeds the input. -/
lemma length_dropWhile_le (p : Char → Bool) (l : Str) :
    (l.dropWhile p).length ≤ l.length := by
  induction l with
  | nil => simp
  | cons a l ih =>
    by_cases hp : p a = true
    · rw [List.dropWhile_cons, if_pos hp]
      exact Nat.le_succ_of_le ih
    · rw [List.dropWhile_cons, if_neg hp]

/-- Length of the rest returned by quotedInner never exceeds the input. -/
lemma quotedInner_rest_le (rem : Str) : ∀ (p : Str) (cap : Nat) (e : Bool)
    (v rest : Str), quotedInner rem p cap e = some (v, rest) →
    rest.length ≤ rem.length := by
  induction rem with
  | nil =>
    intro p cap e v rest h
    simp only [quotedInner, Option.some.injEq, Prod.mk.injEq] at h
    simp [← h.2]
  | cons b rem ih =>
    intro p cap e v rest h
    cases e with
    | true =>
      simp only [quotedInner] at h
      by_cases hc : p.length < cap
      · rw [if_pos hc] at h
        exact Nat.le_succ_of_le (ih _ _ _ _ _ h)
      · rw [if_neg hc] at h
        exact absurd h (by simp)
    | false =>
      simp only [quotedInner] at h
      by_cases h1 : b = '\\'
      · rw [if_pos h1] at h
        exact Nat.le_succ_of_le (ih _ _ _ _ _ h)
      · rw [if_neg h1] at h
        by_cases h2 : b = '"'
        · rw [if_pos h2] at h
          simp only [Option.some.injEq, Prod.mk.injEq] at h
          simp [← h.2]
        · rw [if_neg h2] at h
          by_cases hc : p.length < cap
          · rw [if_pos hc] at h
            exact Nat.le_succ_of_le (ih _ _ _ _ _ h)
          · rw [if_neg hc] at h
            exact absurd h (by simp)

/-- Length of the rest returned by quotedOuter never exceeds the input. -/
lemma quotedOuter_rest_le (rem : Str) : ∀ (scanned : Str) (v rest : Str),
    quotedOuter rem scanned = some (v, rest) → rest.length ≤ rem.length := by
  induction rem with
  | nil =>
    intro scanned v rest h
    simp only [quotedOuter, Option.some.injEq, Prod.mk.injEq] at h
    simp [← h.2]
  | cons c rem ih =>
    intro scanned v rest h
    simp only [quotedOuter] at h
    by_cases h1 : c = '"'
    · rw [if_pos h1] at h
      simp only [Option.some.injEq, Prod.mk.injEq] at h
      simp [← h.2]
    · rw [if_neg h1] at h
      by_cases h2 : c = '\\'
      · rw [if_pos h2] at h
        have hle := quotedInner_rest_le _ _ _ _ _ _ h
        have h3 : ((c :: rem).drop scanned.length).length ≤ (c :: rem).length := by
          simp [List.length_drop]
        exact le_trans hle h3
      · rw [if_neg h2] at h
        exact Nat.le_succ_of_le (ih _ _ _ h)

/-- Length of the rest returned by expectTokenOrQuoted never exceeds the
input. -/
lemma expectTokenOrQuoted_rest_le (s : Str) (v rest : Str)
    (h : expectTokenOrQuoted s = some (v, rest)) :
    rest.length ≤ s.length := by
  cases s with
  | nil =>
    simp only [expectTokenOrQuoted, expectToken, Option.some.injEq,
      Prod.mk.injEq, List.takeWhile_nil, List.dropWhile_nil] at h
    simp [← h.2]
  | cons c s1 =>
    simp only [expectTokenOrQuoted] at h
    by_cases h1 : c = '"'
    · rw [if_pos h1] at h
      exact Nat.le_succ_of_le (quotedOuter_rest_le _ _ _ _ h)
    · rw [if_neg h1] at h
      simp only [expectToken, Option.some.injEq, Prod.mk.injEq] at h
      calc rest.length = ((c :: s1).dropWhile isTokenChar).length := by rw [h.2]
        _ ≤ (c :: s1).length := length_dropWhile_le _ _

/-- Length of skipSpace never exceeds the input. -/
lemma skipSpace_length_le (s : Str) : (skipSpace s).length ≤ s.length :=
  length_dropWhile_le _ _

/-- The parameter loop of parseValueAndParams (transports.go 158-175):
while s starts with a comma, read a parameter name token, require "=",
read a token-or-quoted value, store the lowercased name; stop, returning
the parameters accumulated so far, as soon as any sub-step yields an
empty string or the "=" is missing.  A panic inside expectTokenOrQuoted
propagates (none). -/
def paramsLoop (s : Str) (params : List (Str × Str)) :
    Option (List (Str × Str)) :=
  match s with
  | ',' :: s1 =>
    match h1 : expectToken (skipSpace s1) with
    | ([], _) => some params
    | (pk0 :: pk1, s2) =>
      match h2 : s2 with
      | '=' :: s3 =>
        match h3 : expectTokenOrQuoted s3 with
        | none => none
        | some ([], _) => some params
        | some (pv0 :: pv1, s4) =>
          paramsLoop (skipSpace s4)
            (mapSet params (toLowerStr (pk0 :: pk1)) (pv0 :: pv1))
      | _ => some params
  | _ => some params
termination_by s.length
decreasing_by
  have e4 : s4.length ≤ s3.length := expectTokenOrQuoted_rest_le s3 _ _ h3
  have e2 : s2.length ≤ (skipSpace s1).length := by
    have h1' := congrArg Prod.snd h1
    simp only [expectToken] at h1'
    rw [h2, ← h1']
    exact length_dropWhile_le _ _
  have e1 : (skipSpace s1).length ≤ s1.length := skipSpace_length_le s1
  have e3 : s2.length = s3.length + 1 := by rw [h2]; rfl
  have e5 : (skipSpace s4).length ≤ s4.length := skipSpace_length_le s4
  simp only [List.length_cons]
  omega

/-- Go parseValueAndParams (transports.go 150-177): read the scheme token
(empty scheme aborts the whole header), lowercase it, then run the
parameter loop on "," + skipSpace(rest). -/
def parseValueAndParams (header : Str) :
    Option (Str × List (Str × Str)) :=
  match expectToken header with
  | ([], _) => some ([], [])
  | (v0 :: v1, s) =>
    match paramsLoop (',' :: skipSpace s) [] with
    | none => none
    | some ps => some (toLowerStr (v0 :: v1), ps)

/-- An authentication challenge (transports.go 128-131): a lowercased
scheme and its parameter mapping. -/
structure AuthChallenge where
  scheme : Str
  parameters : List (Str × Str)
deriving DecidableEq

/-- Go parseAuthHeader (transports.go 139-148) applied to the list of
WWW-Authenticate header values of a response, in occurrence order: each
value yields a challenge unless its scheme parsed empty.  A panic while
parsing any value crashes the program (none). -/
def parseAuthHeader (hs : List Str) : Option (List AuthChallenge) :=
  match hs with
  | [] => some []
  | h :: rest =>
    match parseValueAndParams h with
    | none => none
    | some (v, p) =>
      match parseAuthHeader rest with
      | none => none
      | some cs =>
        if v = [] then some cs else some (⟨v, p⟩ :: cs)

/-! ## HTTP data model

Requests and responses carry only the parts the program reads: method,
URL (as the string req.URL.String()), headers and a fully materialised
body.  Header names are stored in Go's canonical form (Header.Set and
Header.Get canonicalise their key, so all lookups in the program agree on
it). -/

/-- An HTTP request as the transports observe it. -/
structure Request where
  method : Str
  url : Str
  headers : List (Str × Str)
  body : Str
deriving DecidableEq

/-- An HTTP response as the program observes it: the numeric status code,
the status text (e.g. "404 Not Found"), headers and body. -/
structure Response where
  statusCode : Nat
  status : Str
  headers : List (Str × Str)
  body : Str
deriving DecidableEq

deriving instance DecidableEq for Except

/-- The outcome of one RoundTrip of the wrapped transport: a response or
a transport error.  In every error branch of this program the response
half of Go's (resp, err) pair is nil, so the pair collapses to this sum. -/
abbrev RTResult := Except Str Response

/-- A bearer challenge extracted from an AuthChallenge
(transports.go 133-137). -/
structure BearerAuthChallenge where
  realm : Str
  service : Str
  scope : Str
deriving DecidableEq

/-- One observable network action of a transport: forwarding a request to
the wrapped transport, or the token-exchange GET of auth (which also
travels through the wrapped transport, carrying the challenge data). -/
inductive RTEvent where
  | send (req : Request) : RTEvent
  | exchange (challenge : BearerAuthChallenge) : RTEvent
deriving DecidableEq

/-- All values of one header key, in order (Go Header[key]). -/
def headerValues (hs : List (Str × Str)) (k : Str) : List Str :=
  (hs.filter (fun p => p.1 == k)).map (fun p => p.2)

/-- Go Header.Get: the first value of the key, or "" if absent. -/
def headerGet (hs : List (Str × Str)) (k : Str) : Str :=
  match headerValues hs k with
  | [] => []
  | v :: _ => v

/-- Go Header.Set on a request: replace all values of the key with the
single given value. -/
def setHeader (req : Request) (k v : Str) : Request :=
  { req with headers := (req.headers.filter (fun p => !(p.1 == k))) ++ [(k, v)] }

/-- UTF-8 encoding of one character (Go []byte(string) conversion); every
credential in the settled claims is ASCII, where this is the identity on
code points. -/
def utf8Bytes (c : Char) : List Nat :=
  let n := c.toNat
  if n < 128 then [n]
  else if n < 2048 then [192 + n / 64, 128 + n % 64]
  else if n < 65536 then
    [224 + n / 4096, 128 + (n / 64) % 64, 128 + n % 64]
  else
    [240 + n / 262144, 128 + (n / 4096) % 64, 128 + (n / 64) % 64, 128 + n % 64]

/-- The bytes of a string (Go []byte(s)). -/
def strBytes (s : Str) : List Nat := (s.map utf8Bytes).join

/-- The standard base64 alphabet. -/
def base64Table : Str :=
  "ABCDEFGHIJKLMNOPQRSTUVWXYZabcdefghijklmnopqrstuvwxyz0123456789+/".toList

/-- One base64 alphabet character. -/
def b64Char (n : Nat) : Char := base64Table.getD n 'A'

/-- Go base64.StdEncoding.EncodeToString: standard base64 with padding. -/
def base64Encode : List Nat → Str
  | [] => []
  | [a] => [b64Char (a / 4), b64Char ((a % 4) * 16), '=', '=']
  | [a, b] => [b64Char (a / 4), b64Char ((a % 4) * 16 + b / 16),
               b64Char ((b % 16) * 4), '=']
  | a :: b :: c :: rest =>
    [b64Char (a / 4), b64Char ((a % 4) * 16 + b / 16),
     b64Char ((b % 16) * 4 + c / 64), b64Char (c % 64)] ++ base64Encode rest

/-- The canonical Authorization header key. -/
def authorizationK : Str := "Authorization".toList

/-- Go Request.SetBasicAuth: set Authorization to "Basic " followed by the
base64 encoding of username:password. -/
def setBasicAuth (req : Request) (user pass : Str) : Request :=
  setHeader req authorizationK
    ("Basic ".toList ++ base64Encode (strBytes (user ++ ':' :: pass)))

/-! ## Basic-Auth injector (transports.go 12-27) -/

/-- The basicAuthTransport configuration (transports.go 12-17); the
wrapped transport is supplied to basicRoundTrip as a response script. -/
structure BasicAuthTransport where
  url : Str
  username : Str
  password : Str
deriving DecidableEq

/-- Go basicAuthTransport.RoundTrip (transports.go 19-27): if the request
URL has the configured URL as a prefix and a credential is non-empty,
attach basic auth; then forward to the wrapped transport (modelled by the
script of its responses) and return its result verbatim.  The returned
event list records the request actually forwarded. -/
def basicRoundTrip (b : BasicAuthTransport) (req : Request)
    (script : List RTResult) : RTResult × List RTEvent :=
  let req1 :=
    if b.url.isPrefixOf req.url then
      if b.username ≠ [] ∨ b.password ≠ [] then
        setBasicAuth req b.username b.password
      else req
    else req
  match script with
  | [] => (.error "no response scripted".toList, [.send req1])
  | r :: _ => (r, [.send req1])

/-! ## Bearer retry transport (transports.go 29-126) -/

/-- The tokenAuthTransport configuration (transports.go 29-33); the
wrapped transport is supplied as a response script consumed in call
order. -/
structure TokenAuthTransport where
  username : Str
  password : Str
deriving DecidableEq

/-- The canonical form of the WWW-Authenticate header key, as produced by
Go's http.CanonicalHeaderKey (transports.go 141). -/
def wwwAuthenticateK : Str := "Www-Authenticate".toList

/-- Lowercase scheme name "bearer" (transports.go 45). -/
def bearerLC : Str := "bearer".toList

/-- Parameter keys read from a bearer challenge (transports.go 56-58). -/
def realmK : Str := "realm".toList

/-- Parameter key "service". -/
def serviceK : Str := "service".toList

/-- Parameter key "scope". -/
def scopeK : Str := "scope".toList

/-- Models the encoding/json decoding of the authToken payload
(transports.go 107-112; the decoder itself is Go standard library code,
outside this repository): accepts exactly the canonical token document
produced by the token endpoint (spec section 6), an object with a single
token field, and fails on anything else. -/
def tokenFromRest : Str → Option Str
  | [] => none
  | c :: rest =>
    if c = '"' then (if rest = ['\x7d'] then some [] else none)
    else
      match tokenFromRest rest with
      | some t => some (c :: t)
      | none => none

/-- The JSON document prefix of the token payload. -/
def tokenBodyPrefix : Str := ['\x7b', '"', 't', 'o', 'k', 'e', 'n', '"', ':', '"']

/-- The canonical token-endpoint response body for a given token. -/
def mkTokenBody (tok : Str) : Str := tokenBodyPrefix ++ tok ++ ['"', '\x7d']

/-- Decode the authToken JSON body (see tokenFromRest). -/
def decodeToken (body : Str) : Except Str Str :=
  if tokenBodyPrefix.isPrefixOf body then
    match tokenFromRest (body.drop tokenBodyPrefix.length) with
    | some tok => .ok tok
    | none => .error "json decode error".toList
  else .error "json decode error".toList

/-- Go tokenAuthTransport.auth (transports.go 69-115): perform the
token-exchange GET against the challenge realm through the wrapped
transport and return (token, response, error): on a transport error,
("", nil, err); on a non-200 response, ("", response, nil) - note err is
nil there; on a JSON decode failure, ("", nil, err); on success,
(token, nil, nil).  The url.Parse and http.NewRequest failure branches
(lines 70-73 and 82-85) are not modelled: no settled claim reaches them,
as each concerns control flow after the exchange request was sent.  The
realm/service/scope query-assembly and the basic auth attached to the
exchange request (lines 75-89) determine only the bytes of that outgoing
request, which the claims never inspect; the exchange call is therefore
recorded as an event carrying the challenge. -/
def auth (t : TokenAuthTransport) (challenge : BearerAuthChallenge)
    (script : List RTResult) :
    (Str × Option Response × Option Str) × List RTResult × List RTEvent :=
  match script with
  | [] => (([], none, some "no response scripted".toList), [],
           [.exchange challenge])
  | .error e :: rest => (([], none, some e), rest, [.exchange challenge])
  | .ok response :: rest =>
    if response.statusCode ≠ 200 then
      (([], some response, none), rest, [.exchange challenge])
    else
      match decodeToken response.body with
      | .error e => (([], none, some e), rest, [.exchange challenge])
      | .ok tok => ((tok, none, none), rest, [.exchange challenge])

/-- Go tokenAuthTransport.authAndRetry (transports.go 117-126): run auth;
if (and only if) its error is non-nil return (authResp, err) - the
response half is nil in every such branch; otherwise set
Authorization: "Bearer " + token on the original request (token may be
"", exactly as in the source when the exchange response was non-200) and
forward the request once more through the wrapped transport, returning
that result. -/
def authAndRetry (t : TokenAuthTransport) (challenge : BearerAuthChallenge)
    (req : Request) (script : List RTResult) : RTResult × List RTEvent :=
  match auth t challenge script with
  | ((token, _authResp, err), script1, evs) =>
    match err with
    | some e => (.error e, evs)
    | none =>
      let req2 := setHeader req authorizationK ("Bearer ".toList ++ token)
      match script1 with
      | [] => (.error "no response scripted".toList, evs ++ [.send req2])
      | r :: _ => (r, evs ++ [.send req2])

/-- Go tokenAuthTransport.RoundTrip (transports.go 35-63): forward the
request; on a transport error propagate it; on a 401 response parse all
WWW-Authenticate values, pick the first challenge with scheme "bearer";
if none, return the 401 as-is; otherwise build the BearerAuthChallenge
from its realm/service/scope parameters and run authAndRetry.  A parser
panic (none) crashes the program. -/
def tokenRoundTrip (t : TokenAuthTransport) (req : Request)
    (script : List RTResult) : Option (RTResult × List RTEvent) :=
  match script with
  | [] => some (.error "no response scripted".toList, [.send req])
  | .error e :: _ => some (.error e, [.send req])
  | .ok resp :: rest =>
    if resp.statusCode = 401 then
      match parseAuthHeader (headerValues resp.headers wwwAuthenticateK) with
      | none => none
      | some challenges =>
        match challenges.find? (fun c => c.scheme == bearerLC) with
        | none => some (.ok resp, [.send req])
        | some bc =>
          let challenge : BearerAuthChallenge :=
            { realm := mapGetD bc.parameters realmK
              service := mapGetD bc.parameters serviceK
              scope := mapGetD bc.parameters scopeK }
          let r := authAndRetry t challenge req rest
          some (r.1, .send req :: r.2)
    else some (.ok resp, [.send req])

/-! ## Registry client and ReTag (main.go 70-158) -/

/-- The Registry configuration (main.go 79-82); its HTTP client's
transport chain is modelled by the script of chain-level outcomes
consumed by ReTag, which records the requests it hands to the chain. -/
structure Registry where
  url : Str
deriving DecidableEq

/-- An HttpError (main.go 70-73) or the other ReTag outcomes. -/
inductive RetagOutcome where
  | ok : RetagOutcome
  | httpError (status url : Str) : RetagOutcome
  | transportError (e : Str) : RetagOutcome
deriving DecidableEq

/-- OCI image manifest media type (main.go 27). -/
def ociManifestV1MIME : Str :=
  "application/vnd.oci.image.manifest.v1+json".toList

/-- OCI image index media type (main.go 28). -/
def ociIndexV1MIME : Str :=
  "application/vnd.oci.image.index.v1+json".toList

/-- Docker manifest list media type (main.go 26). -/
def dockerManifestListV2MIME : Str :=
  "application/vnd.docker.distribution.manifest.list.v2+json".toList

/-- Docker manifest media type (main.go 25). -/
def dockerManifestV2MIME : Str :=
  "application/vnd.docker.distribution.manifest.v2+json".toList

/-- The Accept header sent on the manifest GET (main.go 118):
strings.Join of the four media types with ", ". -/
def acceptMIMEs : Str :=
  ociManifestV1MIME ++ ", ".toList ++ ociIndexV1MIME ++ ", ".toList
    ++ dockerManifestListV2MIME ++ ", ".toList ++ dockerManifestV2MIME

/-- The canonical Accept header key. -/
def acceptK : Str := "Accept".toList

/-- The canonical Content-Type header key. -/
def contentTypeK : Str := "Content-Type".toList

/-- Registry.url (main.go 105-109) for the manifest path template
"/v2/%s/manifests/%s". -/
def manifestUrl (reg : Registry) (repo tag : Str) : Str :=
  reg.url ++ "/v2/".toList ++ repo ++ "/manifests/".toList ++ tag

/-- The manifest GET request built at main.go 112-118 (its only header is
the Accept list). -/
def manifestGetRequest (reg : Registry) (repo oldTag : Str) : Request :=
  { method := "GET".toList
    url := manifestUrl reg repo oldTag
    headers := [(acceptK, acceptMIMEs)]
    body := [] }

/-- The manifest PUT request built at main.go 138-144 (its only header is
the Content-Type captured from the GET response; the body is the captured
manifest bytes). -/
def manifestPutRequest (reg : Registry) (repo newTag mime body : Str) :
    Request :=
  { method := "PUT".toList
    url := manifestUrl reg repo newTag
    headers := [(contentTypeK, mime)]
    body := body }

/-- Go Registry.ReTag (main.go 111-158): GET the source manifest; any
transport error aborts; a non-200 status fails with
HttpError(status, sourceUrl) before any PUT; otherwise capture the
Content-Type header and body bytes and PUT them to the destination tag;
a non-201 status fails with HttpError(status, destUrl).  The script holds
the chain-level outcome of each request in order; the event list records
the requests handed to the transport chain. -/
def ReTag (reg : Registry) (repo oldTag newTag : Str)
    (script : List RTResult) : RetagOutcome × List RTEvent :=
  let sourceReq := manifestGetRequest reg repo oldTag
  match script with
  | [] => (.transportError "no response scripted".toList, [.send sourceReq])
  | .error e :: _ => (.transportError e, [.send sourceReq])
  | .ok sourceResp :: script1 =>
    if sourceResp.statusCode ≠ 200 then
      (.httpError sourceResp.status (manifestUrl reg repo oldTag),
       [.send sourceReq])
    else
      let receivedMIME := headerGet sourceResp.headers contentTypeK
      let destReq := manifestPutRequest reg repo newTag receivedMIME
        sourceResp.body
      match script1 with
      | [] => (.transportError "no response scripted".toList,
               [.send sourceReq, .send destReq])
      | .error e :: _ => (.transportError e, [.send sourceReq, .send destReq])
      | .ok destResp :: _ =>
        if destResp.statusCode ≠ 201 then
          (.httpError destResp.status (manifestUrl reg repo newTag),
           [.send sourceReq, .send destReq])
        else (.ok, [.send sourceReq, .send destReq])

/-! ## Parser evaluation lemmas -/

/-- A token character is not a space character. -/
lemma token_not_space (c : Char) (h : isTokenChar c = true) :
    isSpaceChar c = false := by
  cases hs : isSpaceChar c
  · rfl
  · exfalso
    have hmem : c ∈ spaceChars := by
      simpa [isSpaceChar] using hs
    simp only [spaceChars, List.mem_cons, List.not_mem_nil, or_false] at hmem
    rcases hmem with rfl | rfl | rfl | rfl <;> exact absurd h (by decide)

/-- skipSpace is the identity on a string led by a token run. -/
lemma skipSpace_token_head (k rest : Str) (hk0 : k ≠ [])
    (hk : ∀ c ∈ k, isTokenChar c = true) :
    skipSpace (k ++ rest) = k ++ rest := by
  cases k with
  | nil => exact absurd rfl hk0
  | cons a k1 =>
    have ha := token_not_space a (hk a (by simp))
    simp [skipSpace, List.dropWhile_cons, ha]

/-- skipSpace drops a leading space character. -/
lemma skipSpace_cons_space (c : Char) (s : Str) (h : isSpaceChar c = true) :
    skipSpace (c :: s) = skipSpace s := by
  simp [skipSpace, List.dropWhile_cons, h]

/-- skipSpace is the identity on a string led by a non-space character. -/
lemma skipSpace_cons_not_space (c : Char) (s : Str)
    (h : isSpaceChar c = false) : skipSpace (c :: s) = c :: s := by
  simp [skipSpace, List.dropWhile_cons, h]

/-- expectToken splits off a token run exactly at the first non-token
character. -/
lemma expectToken_append_stop (w rest : Str)
    (hw : ∀ x ∈ w, isTokenChar x = true)
    (hrest : ∀ c, rest.head? = some c → isTokenChar c = false) :
    expectToken (w ++ rest) = (w, rest) := by
  induction w with
  | nil =>
    cases rest with
    | nil => rfl
    | cons c r =>
      have hc := hrest c rfl
      simp [expectToken, List.takeWhile_cons, List.dropWhile_cons, hc]
  | cons a w ih =>
    have ha : isTokenChar a = true := hw a (by simp)
    have ih' := ih (fun x hx => hw x (by simp [hx]))
    simp only [expectToken, Prod.mk.injEq] at ih'
    simp only [List.cons_append, expectToken, List.takeWhile_cons, ha,
      List.dropWhile_cons, if_pos, Prod.mk.injEq]
    exact ⟨by rw [ih'.1], by rw [ih'.2]⟩

/-- On a quoted value free of quotes and backslashes, the outer scan
reaches the closing quote and returns the value verbatim. -/
lemma quotedOuter_clean (v : Str) : ∀ (scanned rest : Str),
    (∀ c ∈ v, c ≠ '"' ∧ c ≠ '\\') →
    quotedOuter (v ++ '"' :: rest) scanned = some (scanned ++ v, rest) := by
  induction v with
  | nil => intro scanned rest _; simp [quotedOuter]
  | cons a v ih =>
    intro scanned rest hv
    have ha := hv a (by simp)
    simp only [List.cons_append, quotedOuter]
    rw [if_neg ha.1, if_neg ha.2]
    simp only [List.append_eq]
    rw [ih (scanned ++ [a]) rest (fun c hc => hv c (by simp [hc]))]
    simp

/-- expectTokenOrQuoted on a clean double-quoted value. -/
lemma expectTokenOrQuoted_quoted_clean (v rest : Str)
    (hv : ∀ c ∈ v, c ≠ '"' ∧ c ≠ '\\') :
    expectTokenOrQuoted ('"' :: (v ++ '"' :: rest)) = some (v, rest) := by
  simp only [expectTokenOrQuoted, ite_true]
  rw [quotedOuter_clean v [] rest hv]
  simp

/-- The parameter loop stops on an empty input. -/
lemma paramsLoop_nil (params : List (Str × Str)) :
    paramsLoop [] params = some params := by
  rw [paramsLoop]
  all_goals simp

/-- One iteration of the parameter loop, phrased by the values of its
sub-parsers: a parameter name token, "=", then a value that parses
non-empty with remainder s4. -/
lemma paramsLoop_rec_eq (s1 pk s3 v s4 : Str) (params : List (Str × Str))
    (hpk : pk ≠ [])
    (het : expectToken (skipSpace s1) = (pk, '=' :: s3))
    (hq : expectTokenOrQuoted s3 = some (v, s4)) (hv0 : v ≠ []) :
    paramsLoop (',' :: s1) params
      = paramsLoop (skipSpace s4) (mapSet params (toLowerStr pk) v) := by
  cases pk with
  | nil => exact absurd rfl hpk
  | cons k0 k1 =>
  cases v with
  | nil => exact absurd rfl hv0
  | cons v0 v1 =>
  conv_lhs => rw [paramsLoop]
  split
  next snd heq =>
    rw [het] at heq
    exact absurd heq (by simp)
  next pk0 pk1 s2 heq =>
    rw [het] at heq
    injection heq with heq1 heq2
    injection heq1 with heqa heqb
    subst heqa; subst heqb; subst heq2
    split
    next s3x hp1 hp2 heq2 heqh =>
      injection heq2 with _ heq3
      subst heq3
      split
      next heq4 =>
        rw [hq] at heq4
        exact absurd heq4 (by simp)
      next snd2 heq4 =>
        rw [hq] at heq4
        simp only [Option.some.injEq, Prod.mk.injEq] at heq4
        exact absurd heq4.1 (List.cons_ne_nil v0 v1)
      next pv0 pv1 s4x heq4 =>
        rw [hq] at heq4
        simp only [Option.some.injEq, Prod.mk.injEq] at heq4
        rw [← heq4.1, ← heq4.2]
    next hp1 hno =>
      exact (hno s3 hp1 rfl HEq.rfl).elim

/-- The parameter loop halts, keeping the accumulated parameters, when
the value of the current parameter parses to the empty string. -/
lemma paramsLoop_stopval_eq (s1 pk s3 s4 : Str) (params : List (Str × Str))
    (hpk : pk ≠ [])
    (het : expectToken (skipSpace s1) = (pk, '=' :: s3))
    (hq : expectTokenOrQuoted s3 = some ([], s4)) :
    paramsLoop (',' :: s1) params = some params := by
  cases pk with
  | nil => exact absurd rfl hpk
  | cons k0 k1 =>
  conv_lhs => rw [paramsLoop]
  split
  next snd heq =>
    rfl
  next pk0 pk1 s2 heq =>
    rw [het] at heq
    injection heq with heq1 heq2
    injection heq1 with heqa heqb
    subst heqa; subst heqb; subst heq2
    split
    next s3x hp1 hp2 heq2 heqh =>
      injection heq2 with _ heq3
      subst heq3
      split
      next heq4 =>
        rw [hq] at heq4
        exact absurd heq4 (by simp)
      next snd2 heq4 =>
        rfl
      next pv0 pv1 s4x heq4 =>
        rw [hq] at heq4
        simp only [Option.some.injEq, Prod.mk.injEq] at heq4
        exact absurd heq4.1.symm (List.cons_ne_nil pv0 pv1)
    next hp1 hno =>
      exact (hno s3 hp1 rfl HEq.rfl).elim

/-- The parameter loop propagates a panic raised while parsing the value
of the current parameter. -/
lemma paramsLoop_panic_eq (s1 pk s3 : Str) (params : List (Str × Str))
    (hpk : pk ≠ [])
    (het : expectToken (skipSpace s1) = (pk, '=' :: s3))
    (hq : expectTokenOrQuoted s3 = none) :
    paramsLoop (',' :: s1) params = none := by
  cases pk with
  | nil => exact absurd rfl hpk
  | cons k0 k1 =>
  conv_lhs => rw [paramsLoop]
  split
  next snd heq =>
    rw [het] at heq
    exact absurd heq (by simp)
  next pk0 pk1 s2 heq =>
    rw [het] at heq
    injection heq with heq1 heq2
    injection heq1 with heqa heqb
    subst heqa; subst heqb; subst heq2
    split
    next s3x hp1 hp2 heq2 heqh =>
      injection heq2 with _ heq3
      subst heq3
      split
      next heq4 =>
        rfl
      next snd2 heq4 =>
        rw [hq] at heq4
        exact absurd heq4 (by simp)
      next pv0 pv1 s4x heq4 =>
        rw [hq] at heq4
        exact absurd heq4 (by simp)
    next hp1 hno =>
      exact (hno s3 hp1 rfl HEq.rfl).elim

/-- The parameter loop halts when the parameter name parses empty. -/
lemma paramsLoop_stop_key (s1 s2 : Str) (params : List (Str × Str))
    (het : expectToken (skipSpace s1) = ([], s2)) :
    paramsLoop (',' :: s1) params = some params := by
  conv_lhs => rw [paramsLoop]
  split
  next snd heq =>
    rfl
  next pk0 pk1 s2x heq =>
    rw [het] at heq
    exact absurd heq (by simp)

/-- The parameter loop halts when "=" does not follow the parameter
name. -/
lemma paramsLoop_stop_noeq (s1 pk s2 : Str) (params : List (Str × Str))
    (hpk : pk ≠ [])
    (het : expectToken (skipSpace s1) = (pk, s2))
    (hs2 : ∀ t, s2 ≠ '=' :: t) :
    paramsLoop (',' :: s1) params = some params := by
  cases pk with
  | nil => exact absurd rfl hpk
  | cons k0 k1 =>
  conv_lhs => rw [paramsLoop]
  split
  next snd heq =>
    rfl
  next pk0 pk1 s2x heq =>
    rw [het] at heq
    injection heq with heq1 heq2
    injection heq1 with heqa heqb
    subst heqa; subst heqb; subst heq2
    split
    next =>
      rename_i s3x heq2
      exact absurd rfl (hs2 s3x)
    next =>
      rfl

/-- The parameter loop halts on an input not led by a comma. -/
lemma paramsLoop_not_comma (s : Str) (params : List (Str × Str))
    (h : ∀ t, s ≠ ',' :: t) :
    paramsLoop s params = some params := by
  rw [paramsLoop]
  intro s1 hs1
  exact absurd hs1 (h s1)

/-- One successful iteration of the parameter loop: a comma, a parameter
name, "=", then a value that parses non-empty with remainder s4. -/
lemma paramsLoop_step_value (k vrest v s4 : Str) (params : List (Str × Str))
    (hk0 : k ≠ []) (hk : ∀ c ∈ k, isTokenChar c = true)
    (hq : expectTokenOrQuoted vrest = some (v, s4)) (hv0 : v ≠ []) :
    paramsLoop (',' :: (k ++ '=' :: vrest)) params
      = paramsLoop (skipSpace s4) (mapSet params (toLowerStr k) v) := by
  refine paramsLoop_rec_eq _ k vrest v s4 params hk0 ?_ hq hv0
  rw [skipSpace_token_head k _ hk0 hk]
  exact expectToken_append_stop k _ hk (by
    intro c hc
    simp only [List.head?, Option.some.injEq] at hc
    rw [← hc]
    decide)

/-- The parameter loop on key=value halts, keeping the accumulated
parameters, when the value parses to the empty string. -/
lemma paramsLoop_stop_empty_value (k vrest s4 : Str)
    (params : List (Str × Str))
    (hk0 : k ≠ []) (hk : ∀ c ∈ k, isTokenChar c = true)
    (hq : expectTokenOrQuoted vrest = some ([], s4)) :
    paramsLoop (',' :: (k ++ '=' :: vrest)) params = some params := by
  refine paramsLoop_stopval_eq _ k vrest s4 params hk0 ?_ hq
  rw [skipSpace_token_head k _ hk0 hk]
  exact expectToken_append_stop k _ hk (by
    intro c hc
    simp only [List.head?, Option.some.injEq] at hc
    rw [← hc]
    decide)

/-- The parameter loop on key=value propagates a panic raised while
parsing the value. -/
lemma paramsLoop_panic_value (k vrest : Str) (params : List (Str × Str))
    (hk0 : k ≠ []) (hk : ∀ c ∈ k, isTokenChar c = true)
    (hq : expectTokenOrQuoted vrest = none) :
    paramsLoop (',' :: (k ++ '=' :: vrest)) params = none := by
  refine paramsLoop_panic_eq _ k vrest params hk0 ?_ hq
  rw [skipSpace_token_head k _ hk0 hk]
  exact expectToken_append_stop k _ hk (by
    intro c hc
    simp only [List.head?, Option.some.injEq] at hc
    rw [← hc]
    decide)

/-- parseValueAndParams on a header led by a scheme token, given the
value of the parameter loop on the remainder. -/
lemma parseValueAndParams_of_loop (sch rest : Str) (ps : List (Str × Str))
    (hs0 : sch ≠ []) (hs : ∀ c ∈ sch, isTokenChar c = true)
    (hrest : ∀ c, rest.head? = some c → isTokenChar c = false)
    (hloop : paramsLoop (',' :: skipSpace rest) [] = some ps) :
    parseValueAndParams (sch ++ rest) = some (toLowerStr sch, ps) := by
  cases sch with
  | nil => exact absurd rfl hs0
  | cons a sch1 =>
    have het := expectToken_append_stop (a :: sch1) rest hs hrest
    simp only [parseValueAndParams, het, hloop]

/-- parseValueAndParams propagates a panic of the parameter loop. -/
lemma parseValueAndParams_of_loop_panic (sch rest : Str)
    (hs0 : sch ≠ []) (hs : ∀ c ∈ sch, isTokenChar c = true)
    (hrest : ∀ c, rest.head? = some c → isTokenChar c = false)
    (hloop : paramsLoop (',' :: skipSpace rest) [] = none) :
    parseValueAndParams (sch ++ rest) = none := by
  cases sch with
  | nil => exact absurd rfl hs0
  | cons a sch1 =>
    have het := expectToken_append_stop (a :: sch1) rest hs hrest
    simp only [parseValueAndParams, het, hloop]

/-- parseAuthHeader on one header value that parses to a non-empty
scheme. -/
lemma parseAuthHeader_single (h : Str) (v : Str) (ps : List (Str × Str))
    (hparse : parseValueAndParams h = some (v, ps)) (hv : v ≠ []) :
    parseAuthHeader [h] = some [⟨v, ps⟩] := by
  simp only [parseAuthHeader, hparse, if_neg hv]

/-- mapSet on a fresh key appends the binding. -/
lemma mapSet_fresh (m : List (Str × Str)) (k v : Str)
    (h : m.any (fun p => p.1 == k) = false) : mapSet m k v = m ++ [(k, v)] := by
  simp [mapSet, h]

/-- parseValueAndParams on a well-formed header of the shape
scheme realm="R",service="S",scope="Sc" with clean, non-empty quoted
values. -/
lemma parseValueAndParams_three_quoted (sch R S Sc : Str)
    (hs0 : sch ≠ []) (hs : ∀ c ∈ sch, isTokenChar c = true)
    (hR0 : R ≠ []) (hR : ∀ c ∈ R, c ≠ '"' ∧ c ≠ '\\')
    (hS0 : S ≠ []) (hS : ∀ c ∈ S, c ≠ '"' ∧ c ≠ '\\')
    (hSc0 : Sc ≠ []) (hSc : ∀ c ∈ Sc, c ≠ '"' ∧ c ≠ '\\') :
    parseValueAndParams
      (sch ++ ' ' :: (realmK ++ '=' :: '"' :: (R ++ '"' ::
        (',' :: (serviceK ++ '=' :: '"' :: (S ++ '"' ::
        (',' :: (scopeK ++ '=' :: '"' :: (Sc ++ ['"'])))))))))
      = some (toLowerStr sch, [(realmK, R), (serviceK, S), (scopeK, Sc)]) := by
  have hq3 : expectTokenOrQuoted ('"' :: (Sc ++ ['"'])) = some (Sc, []) :=
    expectTokenOrQuoted_quoted_clean Sc [] hSc
  have hq2 := expectTokenOrQuoted_quoted_clean S
    (',' :: (scopeK ++ '=' :: '"' :: (Sc ++ ['"']))) hS
  have hq1 := expectTokenOrQuoted_quoted_clean R
    (',' :: (serviceK ++ '=' :: '"' :: (S ++ '"' ::
      (',' :: (scopeK ++ '=' :: '"' :: (Sc ++ ['"'])))))) hR
  apply parseValueAndParams_of_loop sch _ _ hs0 hs
  · intro c hc
    simp only [List.head?, Option.some.injEq] at hc
    rw [← hc]
    decide
  · rw [skipSpace_cons_space ' ' _ (by decide)]
    rw [skipSpace_token_head realmK _ (by decide) (by decide)]
    rw [paramsLoop_step_value realmK _ R _ [] (by decide) (by decide) hq1 hR0]
    rw [skipSpace_cons_not_space ',' _ (by decide)]
    rw [paramsLoop_step_value serviceK _ S _ _ (by decide) (by decide) hq2 hS0]
    rw [skipSpace_cons_not_space ',' _ (by decide)]
    rw [paramsLoop_step_value scopeK _ Sc _ _ (by decide) (by decide) hq3 hSc0]
    rw [show skipSpace ([] : Str) = [] from rfl]
    rw [paramsLoop_nil]
    rw [show toLowerStr realmK = realmK from by decide,
        show toLowerStr serviceK = serviceK from by decide,
        show toLowerStr scopeK = scopeK from by decide]
    have e1 : (realmK == serviceK) = false := by decide
    have e2 : (realmK == scopeK) = false := by decide
    have e3 : (serviceK == scopeK) = false := by decide
    simp [mapSet, e1, e2, e3]

/-- parseValueAndParams on a header of the shape scheme realm="R" with a
clean, non-empty quoted value. -/
lemma parseValueAndParams_one_quoted (sch R : Str)
    (hs0 : sch ≠ []) (hs : ∀ c ∈ sch, isTokenChar c = true)
    (hR0 : R ≠ []) (hR : ∀ c ∈ R, c ≠ '"' ∧ c ≠ '\\') :
    parseValueAndParams (sch ++ ' ' :: (realmK ++ '=' :: '"' :: (R ++ ['"'])))
      = some (toLowerStr sch, [(realmK, R)]) := by
  have hq1 : expectTokenOrQuoted ('"' :: (R ++ ['"'])) = some (R, []) :=
    expectTokenOrQuoted_quoted_clean R [] hR
  apply parseValueAndParams_of_loop sch _ _ hs0 hs
  · intro c hc
    simp only [List.head?, Option.some.injEq] at hc
    rw [← hc]
    decide
  · rw [skipSpace_cons_space ' ' _ (by decide)]
    rw [skipSpace_token_head realmK _ (by decide) (by decide)]
    rw [paramsLoop_step_value realmK _ R _ [] (by decide) (by decide) hq1 hR0]
    rw [show skipSpace ([] : Str) = [] from rfl]
    rw [paramsLoop_nil]
    rw [show toLowerStr realmK = realmK from by decide]
    simp [mapSet]

/-- parseValueAndParams on a header whose second parameter has an
explicitly empty quoted value: the loop keeps realm, then halts, dropping
scope and everything after it (tail is arbitrary). -/
lemma parseValueAndParams_empty_scope (sch R tail : Str)
    (hs0 : sch ≠ []) (hs : ∀ c ∈ sch, isTokenChar c = true)
    (hR0 : R ≠ []) (hR : ∀ c ∈ R, c ≠ '"' ∧ c ≠ '\\') :
    parseValueAndParams
      (sch ++ ' ' :: (realmK ++ '=' :: '"' :: (R ++ '"' ::
        (',' :: (scopeK ++ '=' :: '"' :: '"' :: tail)))))
      = some (toLowerStr sch, [(realmK, R)]) := by
  have hq1 := expectTokenOrQuoted_quoted_clean R
    (',' :: (scopeK ++ '=' :: '"' :: '"' :: tail)) hR
  have hq2 : expectTokenOrQuoted ('"' :: '"' :: tail) = some ([], tail) := by
    have := expectTokenOrQuoted_quoted_clean [] tail (by simp)
    simpa using this
  apply parseValueAndParams_of_loop sch _ _ hs0 hs
  · intro c hc
    simp only [List.head?, Option.some.injEq] at hc
    rw [← hc]
    decide
  · rw [skipSpace_cons_space ' ' _ (by decide)]
    rw [skipSpace_token_head realmK _ (by decide) (by decide)]
    rw [paramsLoop_step_value realmK _ R _ [] (by decide) (by decide) hq1 hR0]
    rw [skipSpace_cons_not_space ',' _ (by decide)]
    rw [paramsLoop_stop_empty_value scopeK _ tail _ (by decide) (by decide) hq2]
    rw [show toLowerStr realmK = realmK from by decide]
    simp [mapSet]

/-- mapSet keeps all stored values non-empty when the inserted value is
non-empty. -/
lemma mapSet_values_ne_nil (m : List (Str × Str)) (k v : Str)
    (hm : ∀ p ∈ m, p.2 ≠ []) (hv : v ≠ []) :
    ∀ p ∈ mapSet m k v, p.2 ≠ [] := by
  intro p hp
  by_cases h : m.any (fun q => q.1 == k) = true
  · rw [mapSet, if_pos h] at hp
    rcases List.mem_map.mp hp with ⟨q, hq, hpq⟩
    by_cases hqk : (q.1 == k) = true
    · rw [if_pos hqk] at hpq
      rw [← hpq]
      exact hv
    · rw [if_neg hqk] at hpq
      rw [← hpq]
      exact hm q hq
  · rw [mapSet, if_neg h] at hp
    rcases List.mem_append.mp hp with hq | hq
    · exact hm p hq
    · simp only [List.mem_singleton] at hq
      subst hq
      exact hv

/-- Every parameter value stored by the parameter loop is non-empty
(the loop aborts on an empty value before storing it). -/
lemma paramsLoop_values_ne_nil :
    ∀ (n : Nat) (s : Str) (params ps : List (Str × Str)),
      s.length ≤ n → (∀ p ∈ params, p.2 ≠ []) →
      paramsLoop s params = some ps → ∀ p ∈ ps, p.2 ≠ [] := by
  intro n
  induction n with
  | zero =>
    intro s params ps hlen hparams hloop
    have hs : s = [] := List.length_eq_zero.mp (Nat.le_zero.mp hlen)
    subst hs
    rw [paramsLoop_nil] at hloop
    cases hloop
    exact hparams
  | succ n ih =>
    intro s params ps hlen hparams hloop
    by_cases hcomma : ∃ t, s = ',' :: t
    case neg =>
      rw [paramsLoop_not_comma s params (fun t ht => hcomma ⟨t, ht⟩)] at hloop
      cases hloop
      exact hparams
    case pos =>
      obtain ⟨s1, rfl⟩ := hcomma
      rcases hexp : expectToken (skipSpace s1) with ⟨pk, s2⟩
      cases pk with
      | nil =>
        rw [paramsLoop_stop_key s1 s2 params hexp] at hloop
        cases hloop
        exact hparams
      | cons k0 k1 =>
        cases s2 with
        | nil =>
          rw [paramsLoop_stop_noeq s1 (k0 :: k1) [] params
            (List.cons_ne_nil k0 k1) hexp (by simp)] at hloop
          cases hloop
          exact hparams
        | cons c2 s3 =>
          by_cases hc2 : c2 = '='
          case neg =>
            rw [paramsLoop_stop_noeq s1 (k0 :: k1) (c2 :: s3) params
              (List.cons_ne_nil k0 k1) hexp (by
                intro t ht
                injection ht with ht1 _
                exact hc2 ht1)] at hloop
            cases hloop
            exact hparams
          case pos =>
            subst hc2
            rcases hq : expectTokenOrQuoted s3 with _ | ⟨v, s4⟩
            · rw [paramsLoop_panic_eq s1 (k0 :: k1) s3 params
                (List.cons_ne_nil k0 k1) hexp hq] at hloop
              cases hloop
            · cases v with
              | nil =>
                rw [paramsLoop_stopval_eq s1 (k0 :: k1) s3 s4 params
                  (List.cons_ne_nil k0 k1) hexp hq] at hloop
                cases hloop
                exact hparams
              | cons v0 v1 =>
                rw [paramsLoop_rec_eq s1 (k0 :: k1) s3 (v0 :: v1) s4 params
                  (List.cons_ne_nil k0 k1) hexp hq
                  (List.cons_ne_nil v0 v1)] at hloop
                have e4 : s4.length ≤ s3.length :=
                  expectTokenOrQuoted_rest_le s3 _ _ hq
                have e2 : ('=' :: s3).length ≤ s1.length := by
                  have h1' := congrArg Prod.snd hexp
                  simp only [expectToken] at h1'
                  rw [← h1']
                  exact le_trans (length_dropWhile_le _ _)
                    (skipSpace_length_le s1)
                refine ih (skipSpace s4) _ ps ?_ ?_ hloop
                · have e5 := skipSpace_length_le s4
                  simp only [List.length_cons] at hlen e2
                  omega
                · exact mapSet_values_ne_nil _ _ _ hparams
                    (List.cons_ne_nil v0 v1)

/-- The stored parameter mapping of parseValueAndParams holds only
non-empty values. -/
lemma parseValueAndParams_values_ne_nil (h : Str) (v : Str)
    (ps : List (Str × Str)) (hparse : parseValueAndParams h = some (v, ps)) :
    ∀ p ∈ ps, p.2 ≠ [] := by
  rw [parseValueAndParams] at hparse
  split at hparse
  next snd heq =>
    cases hparse
    simp
  next v0 v1 s heq =>
    split at hparse
    next heq2 =>
      cases hparse
    next ps2 heq2 =>
      cases hparse
      exact paramsLoop_values_ne_nil (',' :: skipSpace s).length _ _ _
        le_rfl (by simp) heq2

/-! ## Token decoding and transport lemmas -/

/-- tokenFromRest recovers a quote-free token followed by the closing
quote and brace. -/
lemma tokenFromRest_append (tok : Str) (htok : ∀ c ∈ tok, c ≠ '"') :
    tokenFromRest (tok ++ '"' :: '\x7d' :: []) = some tok := by
  induction tok with
  | nil => rfl
  | cons c tok ih =>
    have hc := htok c (by simp)
    simp only [List.cons_append, tokenFromRest, if_neg hc, List.append_eq]
    rw [ih (fun x hx => htok x (by simp [hx]))]

/-- decodeToken inverts mkTokenBody on quote-free tokens. -/
lemma decodeToken_mkTokenBody (tok : Str) (htok : ∀ c ∈ tok, c ≠ '"') :
    decodeToken (mkTokenBody tok) = .ok tok := by
  rw [decodeToken, mkTokenBody]
  rw [List.append_assoc]
  rw [if_pos (by
    rw [List.isPrefixOf_iff_prefix]
    exact List.prefix_append _ _)]
  rw [List.drop_left]
  rw [tokenFromRest_append tok htok]

/-- auth performs exactly one token exchange, whatever the script
holds. -/
lemma auth_events (t : TokenAuthTransport) (c : BearerAuthChallenge)
    (script : List RTResult) : (auth t c script).2.2 = [.exchange c] := by
  cases script with
  | nil => rfl
  | cons r rest =>
    cases r with
    | error e => rfl
    | ok response =>
      simp only [auth]
      by_cases h : response.statusCode ≠ 200
      · rw [if_pos h]
      · rw [if_neg h]
        cases hdec : decodeToken response.body with
        | error e => rfl
        | ok tokv => rfl

/-- authAndRetry performs exactly one exchange and at most one further
send. -/
lemma authAndRetry_events (t : TokenAuthTransport) (c : BearerAuthChallenge)
    (req : Request) (script : List RTResult) :
    (authAndRetry t c req script).2 = [.exchange c]
    ∨ ∃ req2, (authAndRetry t c req script).2 = [.exchange c, .send req2] := by
  rcases hauth : auth t c script with ⟨⟨token, authResp, err⟩, script1, evs⟩
  have hevs : evs = [.exchange c] := by
    have hx := auth_events t c script
    rw [hauth] at hx
    exact hx
  subst hevs
  simp only [authAndRetry, hauth]
  cases err with
  | some e => exact Or.inl rfl
  | none =>
    cases script1 with
    | nil => exact Or.inr ⟨_, rfl⟩
    | cons r2 rest2 => exact Or.inr ⟨_, rfl⟩

/-- Whether an event is a token exchange. -/
def isExchangeEv : RTEvent → Bool
  | .exchange _ => true
  | .send _ => false

/-- Whether an event forwards a request through the wrapped transport. -/
def isSendEv : RTEvent → Bool
  | .send _ => true
  | .exchange _ => false

/-- Whether an event sends a PUT request. -/
def eventIsPut : RTEvent → Bool
  | .send r => r.method == "PUT".toList
  | .exchange _ => false

/-! ## Concrete fixtures for the scenario theorems -/

/-- A realm value used in the concrete scenarios. -/
def realmTest : Str := "https://auth.example/token".toList

/-- A service value used in the concrete scenarios. -/
def serviceTest : Str := "registry.example".toList

/-- A scope value used in the concrete scenarios. -/
def scopeTest : Str := "repository:acme/widget:pull".toList

/-- A well-formed bearer challenge header value,
Bearer realm="..",service="..",scope="..". -/
def bearerHdrTest : Str :=
  "Bearer".toList ++ ' ' :: (realmK ++ '=' :: '"' :: (realmTest ++ '"' ::
    (',' :: (serviceK ++ '=' :: '"' :: (serviceTest ++ '"' ::
    (',' :: (scopeK ++ '=' :: '"' :: (scopeTest ++ ['"']))))))))

/-- The bearer challenge extracted from bearerHdrTest. -/
def challengeTest : BearerAuthChallenge :=
  { realm := realmTest, service := serviceTest, scope := scopeTest }

/-- A 401 response carrying the bearer challenge. -/
def resp401Test : Response :=
  { statusCode := 401, status := "401 Unauthorized".toList
    headers := [(wwwAuthenticateK, bearerHdrTest)], body := [] }

/-- A failed (403) token-exchange response. -/
def resp403Test : Response :=
  { statusCode := 403, status := "403 Forbidden".toList
    headers := [], body := [] }

/-- A successful (200) response for a retried request. -/
def respOkTest : Response :=
  { statusCode := 200, status := "200 OK".toList
    headers := [], body := "manifest".toList }

/-- A successful token-exchange response carrying the given token. -/
def tokenRespTest (tok : Str) : Response :=
  { statusCode := 200, status := "200 OK".toList
    headers := [], body := mkTokenBody tok }

/-- The original request of the concrete scenarios. -/
def reqTest : Request :=
  { method := "GET".toList
    url := "https://registry.example/v2/acme/widget/manifests/1.0.0".toList
    headers := [], body := [] }

/-- The transport configuration of the concrete scenarios. -/
def tTest : TokenAuthTransport :=
  { username := "user".toList, password := "pass".toList }

/-- A Basic-only challenge header value, Basic realm="x". -/
def basicHdrTest : Str :=
  "Basic".toList ++ ' ' :: (realmK ++ '=' :: '"' :: ("x".toList ++ ['"']))

/-- A 401 response carrying only the Basic challenge. -/
def respBasic401Test : Response :=
  { statusCode := 401, status := "401 Unauthorized".toList
    headers := [(wwwAuthenticateK, basicHdrTest)], body := [] }

/-- A malformed Basic-style header whose unterminated quoted value starts
with a backslash, triggering the parser's buffer-overrun panic. -/
def panicHdrTest : Str :=
  "Basic".toList ++ ' ' :: (realmK ++ '=' :: '"' ::
    ('\\' :: 'a' :: 'b' :: []))

/-- A 401 response carrying only that malformed header value (it holds no
bearer challenge). -/
def respPanic401Test : Response :=
  { statusCode := 401, status := "401 Unauthorized".toList
    headers := [(wwwAuthenticateK, panicHdrTest)], body := [] }

/-- The parse of the concrete bearer challenge header. -/
lemma parse_bearerHdrTest :
    parseAuthHeader [bearerHdrTest]
      = some [⟨bearerLC,
          [(realmK, realmTest), (serviceK, serviceTest),
           (scopeK, scopeTest)]⟩] := by
  have hp := parseValueAndParams_three_quoted ("Bearer".toList)
    realmTest serviceTest scopeTest (by decide) (by decide) (by decide)
    (by decide) (by decide) (by decide) (by decide) (by decide)
  rw [show toLowerStr ("Bearer".toList) = bearerLC from by decide] at hp
  exact parseAuthHeader_single _ _ _ hp (by decide)

/-- The parse of the concrete Basic-only header. -/
lemma parse_basicHdrTest :
    parseAuthHeader [basicHdrTest]
      = some [⟨"basic".toList, [(realmK, "x".toList)]⟩] := by
  have hp := parseValueAndParams_one_quoted ("Basic".toList) ("x".toList)
    (by decide) (by decide) (by decide) (by decide)
  rw [show toLowerStr ("Basic".toList) = "basic".toList from by decide] at hp
  exact parseAuthHeader_single _ _ _ hp (by decide)

/-- The header values of resp401Test. -/
lemma wwwValues_resp401Test :
    headerValues resp401Test.headers wwwAuthenticateK = [bearerHdrTest] := by
  simp [resp401Test, headerValues]

/-- The header values of respBasic401Test. -/
lemma wwwValues_respBasic401Test :
    headerValues respBasic401Test.headers wwwAuthenticateK
      = [basicHdrTest] := by
  simp [respBasic401Test, headerValues]

/-- The header values of respPanic401Test. -/
lemma wwwValues_respPanic401Test :
    headerValues respPanic401Test.headers wwwAuthenticateK
      = [panicHdrTest] := by
  simp [respPanic401Test, headerValues]

/-- Parsing the malformed header value panics. -/
lemma parse_panicHdrTest : parseAuthHeader [panicHdrTest] = none := by
  have hp : parseValueAndParams panicHdrTest = none := by
    apply parseValueAndParams_of_loop_panic ("Basic".toList) _ (by decide)
      (by decide)
    · intro c hc
      simp only [List.head?, Option.some.injEq] at hc
      rw [← hc]
      decide
    · rw [skipSpace_cons_space ' ' _ (by decide)]
      rw [skipSpace_token_head realmK _ (by decide) (by decide)]
      exact paramsLoop_panic_value realmK
        ('"' :: ('\\' :: 'a' :: 'b' :: [])) [] (by decide) (by decide)
        (by decide)
  simp only [parseAuthHeader, hp]

/-- Reading realm, service and scope back from the parsed parameters of
the concrete bearer challenge. -/
lemma mapGetD_paramsTest :
    mapGetD [(realmK, realmTest), (serviceK, serviceTest),
      (scopeK, scopeTest)] realmK = realmTest
    ∧ mapGetD [(realmK, realmTest), (serviceK, serviceTest),
      (scopeK, scopeTest)] serviceK = serviceTest
    ∧ mapGetD [(realmK, realmTest), (serviceK, serviceTest),
      (scopeK, scopeTest)] scopeK = scopeTest := by
  have e1 : (realmK == serviceK) = false := by decide
  have e2 : (realmK == scopeK) = false := by decide
  have e3 : (serviceK == scopeK) = false := by decide
  have e4 : (realmK == realmK) = true := by decide
  have e5 : (serviceK == serviceK) = true := by decide
  have e6 : (scopeK == scopeK) = true := by decide
  have e7 : (serviceK == realmK) = false := by decide
  have e8 : (scopeK == realmK) = false := by decide
  have e9 : (scopeK == serviceK) = false := by decide
  refine ⟨?_, ?_, ?_⟩ <;>
    simp [mapGetD, List.find?, e1, e2, e3, e4, e5, e6, e7, e8, e9]

/-! ## Claim theorems -/

/-- C1: the claim states that when the token-exchange GET returns a
non-200 response, the Bearer Retry Transport returns that exchange
response as its final outcome and does not retry the original request.
The code does the opposite: for a non-200 exchange, auth returns
("", response, nil) - err is nil at transports.go 100-102 - and
authAndRetry checks only err != nil (line 119), so it proceeds to set
Authorization "Bearer " with an empty token on the original request and
resends it, returning the retry's outcome; the exchange response is
discarded.  This theorem evaluates the transport at the failing input:
first response 401 with a bearer challenge, exchange response 403, retry
response 200 - the final outcome is the retry's 200 response, not the
403, and the original request is resent. -/
theorem c1_exchange_failure_retries_anyway :
    tokenRoundTrip tTest reqTest
      [.ok resp401Test, .ok resp403Test, .ok respOkTest]
      = some (.ok respOkTest,
          [.send reqTest, .exchange challengeTest,
           .send (setHeader reqTest authorizationK ("Bearer ".toList))]) := by
  simp only [tokenRoundTrip]
  rw [if_pos (show resp401Test.statusCode = 401 from rfl)]
  rw [wwwValues_resp401Test, parse_bearerHdrTest]
  decide

/-- C2: the claim states that every backslash-escape sequence in a quoted
parameter value decodes to the literal escaped character wherever it
occurs.  The code's escape loop resumes at index 2*i instead of i+1
("i += i", transports.go 257), so an escape whose backslash is not at
index 1 of the quoted content decodes wrongly: in realm="ab\"c" the
escaped quote is dropped and the stored value is abc instead of ab"c.
This theorem evaluates the parser at that failing input. -/
theorem c2_escape_decode_drops_char :
    parseValueAndParams
      ("Bearer".toList ++ ' ' :: (realmK ++ '=' :: '"' ::
        ('a' :: 'b' :: '\\' :: '"' :: 'c' :: '"' :: [])))
      = some (bearerLC, [(realmK, "abc".toList)])
    ∧ ("abc".toList : Str) ≠ ('a' :: 'b' :: '"' :: 'c' :: []) := by
  constructor
  · have hp := parseValueAndParams_of_loop ("Bearer".toList)
      (' ' :: (realmK ++ '=' :: '"' ::
        ('a' :: 'b' :: '\\' :: '"' :: 'c' :: '"' :: [])))
      [(realmK, "abc".toList)] (by decide) (by decide)
      (by
        intro c hc
        simp only [List.head?, Option.some.injEq] at hc
        rw [← hc]
        decide)
      (by
        rw [skipSpace_cons_space ' ' _ (by decide)]
        rw [skipSpace_token_head realmK _ (by decide) (by decide)]
        rw [paramsLoop_step_value realmK
          ('"' :: ('a' :: 'b' :: '\\' :: '"' :: 'c' :: '"' :: []))
          ("abc".toList) [] [] (by decide) (by decide) (by decide) (by decide)]
        rw [show skipSpace ([] : Str) = [] from rfl, paramsLoop_nil]
        rw [show toLowerStr realmK = realmK from by decide]
        simp [mapSet])
    rw [show toLowerStr ("Bearer".toList) = bearerLC from by decide] at hp
    exact hp
  · decide

/-- C3: the claim states that parsing any header, including one with an
unterminated quoted value with or without backslash escapes, terminates
without crashing, keeping the scheme and the already-parsed parameters.
The code can crash: for an unterminated value whose first character after
the opening quote is a backslash, the "i += i" jump (transports.go 257)
restarts the escape loop at the backslash itself, so one extra byte is
written and the write index overruns the len(s)-1-byte buffer p
(p[j] = b panics, index out of range).  This theorem evaluates the parser
at the failing input Bearer realm="\ab, where the panic (modelled as
none) occurs instead of the claimed scheme-and-no-parameters result. -/
theorem c3_unterminated_escape_panics :
    parseValueAndParams
      ("Bearer".toList ++ ' ' :: (realmK ++ '=' :: '"' ::
        ('\\' :: 'a' :: 'b' :: [])))
      = none := by
  apply parseValueAndParams_of_loop_panic ("Bearer".toList) _ (by decide)
    (by decide)
  · intro c hc
    simp only [List.head?, Option.some.injEq] at hc
    rw [← hc]
    decide
  · rw [skipSpace_cons_space ' ' _ (by decide)]
    rw [skipSpace_token_head realmK _ (by decide) (by decide)]
    exact paramsLoop_panic_value realmK ('"' :: ('\\' :: 'a' :: 'b' :: []))
      [] (by decide) (by decide) (by decide)

/-- C5: the Basic-Auth injector attaches the Basic Authorization header
built from username:password exactly when the request URL has the
configured registry base URL as a prefix and at least one credential is
non-empty, and forwards any request whose URL lacks that prefix
unmodified. -/
theorem c5_basic_auth_prefix_gate (b : BasicAuthTransport) (req : Request)
    (script : List RTResult) :
    (b.url.isPrefixOf req.url = true →
      (b.username ≠ [] ∨ b.password ≠ []) →
      (basicRoundTrip b req script).2
        = [.send (setBasicAuth req b.username b.password)])
    ∧ (b.url.isPrefixOf req.url = false →
      (basicRoundTrip b req script).2 = [.send req]) := by
  constructor
  · intro hp hc
    simp only [basicRoundTrip, hp, if_true, if_pos hc]
    cases script <;> rfl
  · intro hp
    simp only [basicRoundTrip, hp, Bool.false_eq_true, if_false]
    cases script <;> rfl

/-- C5 witness: at a matching URL with a non-empty username the header is
attached; at a non-matching URL the request passes through unmodified. -/
theorem c5_basic_auth_prefix_gate_witness :
    (basicRoundTrip
      ⟨"https://reg.example/".toList, "u".toList, []⟩
      ⟨"GET".toList, "https://reg.example/v2/x".toList, [], []⟩ []).2
      = [.send (setBasicAuth
          ⟨"GET".toList, "https://reg.example/v2/x".toList, [], []⟩
          ("u".toList) [])]
    ∧ (basicRoundTrip
      ⟨"https://reg.example/".toList, "u".toList, []⟩
      ⟨"GET".toList, "https://auth.example/token".toList, [], []⟩ []).2
      = [.send ⟨"GET".toList, "https://auth.example/token".toList, [], []⟩] :=
  ⟨(c5_basic_auth_prefix_gate _ _ _).1 (by decide) (Or.inl (by decide)),
   (c5_basic_auth_prefix_gate _ _ _).2 (by decide)⟩

/-- C8: when the manifest GET response status is not 200, ReTag fails
with an HttpError carrying that response's status text and the GET URL,
and no PUT request is ever issued. -/
theorem c8_get_failure_no_put (reg : Registry) (repo oldTag newTag : Str)
    (resp : Response) (rest : List RTResult) (h : resp.statusCode ≠ 200) :
    ReTag reg repo oldTag newTag (.ok resp :: rest)
      = (.httpError resp.status (manifestUrl reg repo oldTag),
         [.send (manifestGetRequest reg repo oldTag)])
    ∧ ∀ ev ∈ (ReTag reg repo oldTag newTag (.ok resp :: rest)).2,
        eventIsPut ev = false := by
  have hget : eventIsPut (.send (manifestGetRequest reg repo oldTag))
      = false := by
    simp only [eventIsPut, manifestGetRequest]
    decide
  have hr : ReTag reg repo oldTag newTag (.ok resp :: rest)
      = (.httpError resp.status (manifestUrl reg repo oldTag),
         [.send (manifestGetRequest reg repo oldTag)]) := by
    simp only [ReTag, if_pos h]
  refine ⟨hr, ?_⟩
  rw [hr]
  intro ev hev
  simp only [List.mem_singleton] at hev
  subst hev
  exact hget

/-- C8 witness: a 404 on the manifest GET yields the HttpError with the
status text and source URL, and the single issued request is the GET. -/
theorem c8_get_failure_no_put_witness :
    ReTag ⟨"https://registry.example".toList⟩ ("acme/widget".toList)
      ("1.0.0".toList) ("1.0.1".toList)
      [.ok ⟨404, "404 Not Found".toList, [], []⟩]
      = (.httpError ("404 Not Found".toList)
          (manifestUrl ⟨"https://registry.example".toList⟩
            ("acme/widget".toList) ("1.0.0".toList)),
         [.send (manifestGetRequest ⟨"https://registry.example".toList⟩
           ("acme/widget".toList) ("1.0.0".toList))])
    ∧ ∀ ev ∈ (ReTag ⟨"https://registry.example".toList⟩
        ("acme/widget".toList) ("1.0.0".toList) ("1.0.1".toList)
        [.ok ⟨404, "404 Not Found".toList, [], []⟩]).2,
        eventIsPut ev = false :=
  c8_get_failure_no_put _ _ _ _ _ _ (by decide)

/-- C9: after a successful (200) manifest GET, ReTag issues exactly the
GET followed by a PUT to the destination manifest URL whose body is
byte-for-byte the GET response body and whose Content-Type header equals
the GET response's Content-Type header. -/
theorem c9_put_roundtrips_manifest (reg : Registry) (repo oldTag newTag : Str)
    (resp : Response) (rest : List RTResult) (h : resp.statusCode = 200) :
    (ReTag reg repo oldTag newTag (.ok resp :: rest)).2
      = [.send (manifestGetRequest reg repo oldTag),
         .send (manifestPutRequest reg repo newTag
           (headerGet resp.headers contentTypeK) resp.body)] := by
  simp only [ReTag]
  rw [if_neg (by simp [h])]
  cases rest with
  | nil => rfl
  | cons r2 rest2 =>
    cases r2 with
    | error e => rfl
    | ok d =>
      by_cases h2 : d.statusCode ≠ 201 <;> simp [h2]

/-- C9 witness: with a 200 GET response carrying a manifest body and
Content-Type, the two issued requests are the GET and the round-tripping
PUT. -/
theorem c9_put_roundtrips_manifest_witness :
    (ReTag ⟨"https://registry.example".toList⟩ ("acme/widget".toList)
      ("1.0.0".toList) ("1.0.1".toList)
      [.ok ⟨200, "200 OK".toList, [(contentTypeK, dockerManifestV2MIME)],
        "manifestbytes".toList⟩,
       .ok ⟨201, "201 Created".toList, [], []⟩]).2
      = [.send (manifestGetRequest ⟨"https://registry.example".toList⟩
          ("acme/widget".toList) ("1.0.0".toList)),
         .send (manifestPutRequest ⟨"https://registry.example".toList⟩
          ("acme/widget".toList) ("1.0.1".toList)
          (headerGet [(contentTypeK, dockerManifestV2MIME)] contentTypeK)
          ("manifestbytes".toList))] :=
  c9_put_roundtrips_manifest _ _ _ _ _ _ (by decide)

/-- C6: a well-formed header value of the form
Bearer realm="R",service="S",scope="Sc" parses to exactly one challenge
with scheme "bearer" and parameters exactly realm R, service S, scope Sc,
identically for the scheme spellings BEARER, Bearer and bearer (scheme
and parameter names are lowercased; the parameter keys in the header are
already lowercase). -/
theorem c6_wellformed_bearer_parse (sch R S Sc : Str)
    (hsch : sch = "BEARER".toList ∨ sch = "Bearer".toList
      ∨ sch = "bearer".toList)
    (hR0 : R ≠ []) (hR : ∀ c ∈ R, c ≠ '"' ∧ c ≠ '\\')
    (hS0 : S ≠ []) (hS : ∀ c ∈ S, c ≠ '"' ∧ c ≠ '\\')
    (hSc0 : Sc ≠ []) (hSc : ∀ c ∈ Sc, c ≠ '"' ∧ c ≠ '\\') :
    parseAuthHeader [sch ++ ' ' :: (realmK ++ '=' :: '"' :: (R ++ '"' ::
      (',' :: (serviceK ++ '=' :: '"' :: (S ++ '"' ::
      (',' :: (scopeK ++ '=' :: '"' :: (Sc ++ ['"']))))))))]
      = some [⟨bearerLC,
          [(realmK, R), (serviceK, S), (scopeK, Sc)]⟩] := by
  have hlow : toLowerStr sch = bearerLC := by
    rcases hsch with rfl | rfl | rfl <;> decide
  have hs0 : sch ≠ [] := by
    rcases hsch with rfl | rfl | rfl <;> decide
  have hs : ∀ c ∈ sch, isTokenChar c = true := by
    rcases hsch with rfl | rfl | rfl <;> decide
  have hp := parseValueAndParams_three_quoted sch R S Sc hs0 hs
    hR0 hR hS0 hS hSc0 hSc
  rw [hlow] at hp
  exact parseAuthHeader_single _ _ _ hp (by decide)

/-- C6 witness: the three spellings at concrete values. -/
theorem c6_wellformed_bearer_parse_witness :
    parseAuthHeader [("BEARER".toList) ++ ' ' :: (realmK ++ '=' :: '"' ::
      (("r".toList) ++ '"' :: (',' :: (serviceK ++ '=' :: '"' ::
      (("s".toList) ++ '"' :: (',' :: (scopeK ++ '=' :: '"' ::
      (("sc".toList) ++ ['"']))))))))]
      = some [⟨bearerLC,
          [(realmK, "r".toList), (serviceK, "s".toList),
           (scopeK, "sc".toList)]⟩] :=
  c6_wellformed_bearer_parse ("BEARER".toList) ("r".toList) ("s".toList)
    ("sc".toList) (Or.inl rfl) (by decide) (by decide) (by decide)
    (by decide) (by decide) (by decide)

/-- C7 counterexample: the claim as stated quantifies over every 401
response carrying no bearer challenge, explicitly including responses
with only malformed header values.  A 401 whose only WWW-Authenticate
value is the malformed Basic realm="\\ab does not return the original
401 untouched: parsing the header crashes the program (the same
buffer-overrun panic as in C3), so the transport's outcome is the panic
(none), not the claimed result. -/
theorem c7_panic_counterexample :
    tokenRoundTrip tTest reqTest [.ok respPanic401Test] = none
    ∧ (none : Option (RTResult × List RTEvent))
      ≠ some (.ok respPanic401Test, [.send reqTest]) := by
  constructor
  · simp only [tokenRoundTrip]
    rw [if_pos (show respPanic401Test.statusCode = 401 from rfl)]
    rw [wwwValues_respPanic401Test, parse_panicHdrTest]
  · decide

/-- C7 (amended): on a 401 response whose WWW-Authenticate values parse
without crashing and whose parsed challenges contain none with scheme
"bearer", the Bearer Retry Transport returns the original 401 response
unchanged, performs no token exchange and sends no second request: its
only event is the single original send. -/
theorem c7_no_bearer_returns_original (t : TokenAuthTransport)
    (req : Request) (resp : Response) (rest : List RTResult)
    (cs : List AuthChallenge) (h401 : resp.statusCode = 401)
    (hparse : parseAuthHeader (headerValues resp.headers wwwAuthenticateK)
      = some cs)
    (hnb : ∀ c ∈ cs, c.scheme ≠ bearerLC) :
    tokenRoundTrip t req (.ok resp :: rest)
      = some (.ok resp, [.send req]) := by
  have hfind : cs.find? (fun c => c.scheme == bearerLC) = none := by
    rw [List.find?_eq_none]
    intro c hc
    simpa using hnb c hc
  simp only [tokenRoundTrip, if_pos h401, hparse, hfind]

/-- C7 witness: a 401 carrying only a Basic challenge is returned
untouched after a single send. -/
theorem c7_no_bearer_returns_original_witness :
    tokenRoundTrip tTest reqTest [.ok respBasic401Test]
      = some (.ok respBasic401Test, [.send reqTest]) :=
  c7_no_bearer_returns_original tTest reqTest respBasic401Test []
    [⟨"basic".toList, [(realmK, "x".toList)]⟩] rfl
    (by rw [wwwValues_respBasic401Test, parse_basicHdrTest])
    (by decide)

/-- C10: every value stored in a parsed parameter mapping is non-empty;
and when a parameter's value parses to the empty string - here the
explicitly empty quoted value scope="" - that parameter and every
parameter after it in the header (tail is arbitrary) are omitted, while
the scheme and the parameters parsed before it are kept. -/
theorem c10_param_values_nonempty :
    (∀ (h v : Str) (ps : List (Str × Str)),
      parseValueAndParams h = some (v, ps) → ∀ p ∈ ps, p.2 ≠ [])
    ∧ (∀ (sch R tail : Str), sch ≠ [] →
      (∀ c ∈ sch, isTokenChar c = true) → R ≠ [] →
      (∀ c ∈ R, c ≠ '"' ∧ c ≠ '\\') →
      parseValueAndParams
        (sch ++ ' ' :: (realmK ++ '=' :: '"' :: (R ++ '"' ::
          (',' :: (scopeK ++ '=' :: '"' :: '"' :: tail)))))
        = some (toLowerStr sch, [(realmK, R)])) := by
  constructor
  · exact parseValueAndParams_values_ne_nil
  · intro sch R tail hs0 hs hR0 hR
    exact parseValueAndParams_empty_scope sch R tail hs0 hs hR0 hR

/-- C10 witness: the concrete header
Bearer realm="r",scope="",service="s" keeps the scheme and realm only,
and every stored value of that result is non-empty. -/
theorem c10_param_values_nonempty_witness :
    parseValueAndParams (("Bearer".toList) ++ ' ' :: (realmK ++ '=' ::
      '"' :: (("r".toList) ++ '"' :: (',' :: (scopeK ++ '=' :: '"' ::
      '"' :: (',' :: (serviceK ++ '=' :: '"' :: 's' :: ['"'])))))))
      = some (toLowerStr ("Bearer".toList), [(realmK, "r".toList)])
    ∧ ∀ p ∈ [(realmK, ("r".toList : Str))], p.2 ≠ [] := by
  have h1 := c10_param_values_nonempty.2 ("Bearer".toList) ("r".toList)
    (',' :: (serviceK ++ '=' :: '"' :: 's' :: ['"'])) (by decide)
    (by decide) (by decide) (by decide)
  exact ⟨h1, c10_param_values_nonempty.1 _ _ _ h1⟩

/-- C4: for every script of wrapped-transport outcomes, the Bearer Retry
Transport performs at most one token exchange and at most two sends of
the original request (the original send plus at most one resend); and in
the concrete scenario where the first response is a 401 with a bearer
challenge, the exchange succeeds with token tok, and the retried request
returns a second 401, that second 401 is the final outcome after exactly
one exchange and one resend carrying Authorization Bearer tok. -/
theorem c4_single_exchange_single_retry :
    (∀ (t : TokenAuthTransport) (req : Request) (script : List RTResult)
      (r : RTResult) (evs : List RTEvent),
      tokenRoundTrip t req script = some (r, evs) →
      evs.countP isExchangeEv ≤ 1 ∧ evs.countP isSendEv ≤ 2)
    ∧ (∀ (t : TokenAuthTransport) (req : Request) (tok : Str)
      (resp2 : Response) (rest : List RTResult),
      (∀ c ∈ tok, c ≠ '"') → resp2.statusCode = 401 →
      tokenRoundTrip t req
        (.ok resp401Test :: .ok (tokenRespTest tok) :: .ok resp2 :: rest)
        = some (.ok resp2,
            [.send req, .exchange challengeTest,
             .send (setHeader req authorizationK
               ("Bearer ".toList ++ tok))])) := by
  constructor
  · intro t req script r evs h
    cases script with
    | nil =>
      simp only [tokenRoundTrip, Option.some.injEq, Prod.mk.injEq] at h
      rw [← h.2]
      simp [List.countP_cons, List.countP_nil, isExchangeEv, isSendEv]
    | cons r0 rest =>
      cases r0 with
      | error e =>
        simp only [tokenRoundTrip, Option.some.injEq, Prod.mk.injEq] at h
        rw [← h.2]
        simp [List.countP_cons, List.countP_nil, isExchangeEv, isSendEv]
      | ok resp =>
        by_cases h401 : resp.statusCode = 401
        · rcases hpa : parseAuthHeader
            (headerValues resp.headers wwwAuthenticateK) with _ | challenges
          · simp only [tokenRoundTrip, if_pos h401, hpa] at h
            cases h
          · rcases hfind : challenges.find? (fun c => c.scheme == bearerLC)
              with _ | bc
            · simp only [tokenRoundTrip, if_pos h401, hpa, hfind,
                Option.some.injEq, Prod.mk.injEq] at h
              rw [← h.2]
              simp [List.countP_cons, List.countP_nil, isExchangeEv, isSendEv]
            · simp only [tokenRoundTrip, if_pos h401, hpa, hfind,
                Option.some.injEq, Prod.mk.injEq] at h
              rcases authAndRetry_events t
                ⟨mapGetD bc.parameters realmK, mapGetD bc.parameters serviceK,
                 mapGetD bc.parameters scopeK⟩ req rest with hev | ⟨req2, hev⟩
              · rw [← h.2, hev]
                simp [List.countP_cons, List.countP_nil, isExchangeEv,
                  isSendEv]
              · rw [← h.2, hev]
                simp [List.countP_cons, List.countP_nil, isExchangeEv,
                  isSendEv]
        · simp only [tokenRoundTrip, if_neg h401, Option.some.injEq,
            Prod.mk.injEq] at h
          rw [← h.2]
          simp [List.countP_cons, List.countP_nil, isExchangeEv, isSendEv]
  · intro t req tok resp2 rest htok h401b
    obtain ⟨m1, m2, m3⟩ := mapGetD_paramsTest
    have hfind : ([⟨bearerLC, [(realmK, realmTest), (serviceK, serviceTest),
        (scopeK, scopeTest)]⟩] : List AuthChallenge).find?
        (fun c => c.scheme == bearerLC)
        = some ⟨bearerLC, [(realmK, realmTest), (serviceK, serviceTest),
            (scopeK, scopeTest)]⟩ := by decide
    simp only [tokenRoundTrip]
    rw [if_pos (show resp401Test.statusCode = 401 from rfl)]
    rw [wwwValues_resp401Test, parse_bearerHdrTest]
    simp only [hfind, m1, m2, m3]
    have hchal : (⟨realmTest, serviceTest, scopeTest⟩ : BearerAuthChallenge)
        = challengeTest := rfl
    rw [hchal]
    have hauth : authAndRetry t challengeTest req
        (.ok (tokenRespTest tok) :: .ok resp2 :: rest)
        = (.ok resp2,
           [.exchange challengeTest,
            .send (setHeader req authorizationK
              ("Bearer ".toList ++ tok))]) := by
      simp only [authAndRetry, auth]
      rw [if_neg (show ¬(tokenRespTest tok).statusCode ≠ 200 from by
        simp [tokenRespTest])]
      rw [show (tokenRespTest tok).body = mkTokenBody tok from rfl]
      rw [decodeToken_mkTokenBody tok htok]
      rfl
    rw [hauth]

/-- C4 witness: the general bound applied to the empty script, and the
concrete second-401 scenario with token abc. -/
theorem c4_single_exchange_single_retry_witness :
    (([RTEvent.send reqTest] : List RTEvent).countP isExchangeEv ≤ 1
      ∧ ([RTEvent.send reqTest] : List RTEvent).countP isSendEv ≤ 2)
    ∧ tokenRoundTrip tTest reqTest
        (.ok resp401Test :: .ok (tokenRespTest ("abc".toList))
          :: .ok ⟨401, "401 Unauthorized".toList, [], []⟩ :: [])
        = some (.ok ⟨401, "401 Unauthorized".toList, [], []⟩,
            [.send reqTest, .exchange challengeTest,
             .send (setHeader reqTest authorizationK
               ("Bearer ".toList ++ "abc".toList))]) :=
  ⟨c4_single_exchange_single_retry.1 tTest reqTest [] _ _ rfl,
   c4_single_exchange_single_retry.2 tTest reqTest ("abc".toList)
     ⟨401, "401 Unauthorized".toList, [], []⟩ [] (by decide) rfl⟩

end DockerRetag
